import Mathlib

/-!
Verification of the petitBac real-time word-game server.

The repository contains two variants of the session engine:
* `src/petitBac/server.js` — embedded below in namespace `SJ`;
* `src/Socket.IO` — a variant with per-player drafts and the
  `playingPlayers` eligibility helper — embedded in namespace `SV`.

JavaScript `Map`s (insertion-ordered, unique keys) are embedded as
association lists whose `set` replaces in place and appends fresh keys,
matching `Map.prototype.set`.  Plain objects used as string-keyed maps
(`answers`, `validations`, drafts) are association lists as well.
External effects (socket broadcasts) are dropped except where a claim
needs the emitted payload (the `progress` event), in which case the
handler returns it alongside the new state.  Sources of randomness
(`nanoid`, `randomLetter`, `pickRandom` over the category file) are
passed in as explicit parameters.
-/

namespace PetitBac

/-- JS object used as a map from category name to answer text. -/
abbrev AnsMap := List (String × String)

/-- JS object used as a map from category name to validation mark. -/
abbrev ValMap := List (String × Bool)

inductive Status where
  | lobby
  | playing
  | review
deriving DecidableEq, Repr

inductive EndMode where
  | first
  | all
deriving DecidableEq, Repr

/-- Reading `obj[key]` on a validations object, with JS `undefined`
coerced to `false` by `!`/`filter(Boolean)` contexts. -/
def vlookup (vs : ValMap) (k : String) : Bool :=
  ((vs.find? (fun e => e.1 == k)).map (fun e => e.2)).getD false

/-- Writing `obj[key] = b`: an existing property keeps its position, a
new property is appended (JS object key order). -/
def vset (vs : ValMap) (k : String) (b : Bool) : ValMap :=
  if vs.any (fun e => e.1 == k) then vs.map (fun e => if e.1 == k then (k, b) else e)
  else vs ++ [(k, b)]

/-- `Object.values(p.validations).filter(Boolean).length`. -/
def countTrue (vs : ValMap) : Nat :=
  (vs.filter (fun e => e.2)).length

/-- `(name || dflt).slice(0, 20)` with the empty string falsy. -/
def nameOr (dflt s : String) : String :=
  (if s.isEmpty then dflt else s).take 20

/-- JS `String.prototype.toUpperCase` restricted to ASCII (all that
room codes use), written as an executable character map — Lean core's
`String.toUpper` is defined by well-founded recursion and does not
evaluate inside the kernel. -/
def upperAscii (s : String) : String :=
  String.mk (s.data.map (fun ch => if ch.isLower then Char.ofNat (ch.toNat - 32) else ch))

/-- JS `index | 0`: coercion to a signed 32-bit integer. -/
def toInt32 (n : Int) : Int :=
  (n + 2 ^ 31) % 2 ^ 32 - 2 ^ 31

/-- `DEFAULT_CATEGORIES` from `server.js`. -/
def DEFAULT_CATEGORIES : List String :=
  ["Fruit", "Objet très utile sur une île déserte", "Hobby",
   "Sport un peu niche", "Arme", "Site internet"]

namespace SJ

/- Embedding of `src/petitBac/server.js`. -/

structure Player where
  id : String
  name : String
  score : Nat
  submitted : Bool
  answers : AnsMap
  validations : ValMap
  joinedAt : Nat
deriving DecidableEq, Repr

structure Game where
  code : String
  hostId : String
  status : Status
  round : Nat
  letter : Option String
  categories : List String
  reviewIndex : Nat
  hostPlays : Bool
  endMode : EndMode
  randomThemes : Bool
  players : List Player
deriving DecidableEq, Repr

/-- `game.players.get(sid)`. -/
def getPlayer (ps : List Player) (sid : String) : Option Player :=
  ps.find? (fun p => p.id == sid)

/-- `game.players.set(sid, v)`: replace in place, else append. -/
def setPlayer (ps : List Player) (sid : String) (v : Player) : List Player :=
  if ps.any (fun p => p.id == sid) then ps.map (fun p => if p.id == sid then v else p)
  else ps ++ [v]

/-- `game.players.delete(sid)`. -/
def delPlayer (ps : List Player) (sid : String) : List Player :=
  ps.filter (fun p => !(p.id == sid))

/-- The process-wide `games` map, keyed by room code. -/
abbrev Registry := List (String × Game)

/-- `games.get(k)`. -/
def mapGet (gs : Registry) (k : String) : Option Game :=
  (gs.find? (fun e => e.1 == k)).map (fun e => e.2)

/-- `games.set(k, v)`. -/
def mapSet (gs : Registry) (k : String) (v : Game) : Registry :=
  if gs.any (fun e => e.1 == k) then gs.map (fun e => if e.1 == k then (k, v) else e)
  else gs ++ [(k, v)]

/-- The fresh player record built by `createGame`/`joinGame`. -/
def mkPlayer (sid dflt name : String) (now : Nat) : Player :=
  { id := sid, name := nameOr dflt name, score := 0, submitted := false,
    answers := [], validations := [], joinedAt := now }

/-- The `createGame` handler.  `code` is the value returned by
`nanoid()` (external randomness, passed in); `now` is `Date.now()`. -/
def createGame (gs : Registry) (sockId code name : String)
    (categories : Option (List String)) (hostPlays : Bool) (endMode : String)
    (randomThemes : Bool) (now : Nat) : Registry :=
  let game : Game :=
    { code := code
      hostId := sockId
      status := Status.lobby
      round := 0
      letter := none
      categories :=
        match categories with
        | some cs => if cs.isEmpty then DEFAULT_CATEGORIES else cs
        | none => DEFAULT_CATEGORIES
      reviewIndex := 0
      hostPlays := hostPlays
      endMode := if endMode == "first" then EndMode.first else EndMode.all
      randomThemes := randomThemes
      players := [mkPlayer sockId "Maître" name now] }
  mapSet gs code game

/-- The `joinGame` handler after the registry lookup: rejected unless
the game is in the lobby, then `players.set` with a fresh record. -/
def joinGame (g : Game) (sid name : String) (now : Nat) : Game :=
  if g.status = Status.lobby then
    { g with players := setPlayer g.players sid (mkPlayer sid "Joueur" name now) }
  else g

/-- The `joinGame` handler at registry level:
`games.get((code || "").toUpperCase())` (the empty-code fallback is
folded into the string argument), rejection outside the lobby, then
the roster update applied to the stored room — the JS handler mutates
the room object held inside the Map, which is `mapSet` at the found
key. -/
def joinGameR (gs : Registry) (sid code name : String) (now : Nat) : Registry :=
  match mapGet gs (upperAscii code) with
  | none => gs
  | some game =>
    if game.status = Status.lobby then
      mapSet gs (upperAscii code) { game with players := setPlayer game.players sid (mkPlayer sid "Joueur" name now) }
    else gs

/-- `(letter || randomLetter()).toUpperCase()`, with the random draw
passed in as `rl`. -/
def resolveLetter (letter : Option String) (rl : String) : String :=
  (match letter with
   | some l => if l.isEmpty then rl else l
   | none => rl).toUpper

/-- The `startRound` handler.  `rl` stands for the `randomLetter()`
draw and `randomPick` for `pickRandom(loadCategoriesFile(), 6)`. -/
def startRound (g : Game) (sid : String) (letter : Option String) (rl : String)
    (categories : Option (List String)) (randomPick : List String) : Game :=
  if sid = g.hostId then
    let cats :=
      if g.randomThemes then randomPick
      else
        match categories with
        | some cs =>
          if cs.isEmpty then (if g.categories.isEmpty then DEFAULT_CATEGORIES else g.categories)
          else cs
        | none => if g.categories.isEmpty then DEFAULT_CATEGORIES else g.categories
    { g with
      status := Status.playing
      round := g.round + 1
      letter := some (resolveLetter letter rl)
      categories := cats
      players := g.players.map (fun p =>
        { p with submitted := false, answers := [], validations := [] }) }
  else g

/-- The `submitAnswers` handler: no-op unless the game is `playing` and
the sender has a player record; the sender's answers are stored
verbatim (`answers || {}`) and, in end-mode `first` or once everyone
has submitted, the game enters `review` with the cursor reset. -/
def submitAnswers (g : Game) (sid : String) (answers : Option AnsMap) : Game :=
  if g.status = Status.playing ∧ (getPlayer g.players sid).isSome then
    let players1 := g.players.map (fun p =>
      if p.id == sid then { p with submitted := true, answers := answers.getD [] } else p)
    let allSubmitted := players1.all (fun p => p.submitted)
    if g.endMode = EndMode.first ∨ allSubmitted then
      { g with players := players1, status := Status.review, reviewIndex := 0 }
    else
      { g with players := players1 }
  else g

/-- The `forceReview` handler (host only). -/
def forceReview (g : Game) (sid : String) : Game :=
  if sid = g.hostId then
    { g with status := Status.review, reviewIndex := 0 }
  else g

/-- The `setReviewIndex` handler (host only):
`Math.max(0, Math.min(index | 0, (categories?.length || 1) - 1))`. -/
def setReviewIndex (g : Game) (sid : String) (index : Int) : Game :=
  if sid = g.hostId then
    let mx : Int := (if g.categories.length = 0 then 1 else (g.categories.length : Int)) - 1
    { g with reviewIndex := (max 0 (min (toInt32 index) mx)).toNat }
  else g

/-- The `toggleValidation` handler (host only):
`p.validations[category] = !p.validations[category]`. -/
def toggleValidation (g : Game) (sid pid c : String) : Game :=
  if sid = g.hostId then
    match getPlayer g.players pid with
    | none => g
    | some p =>
      let p2 : Player := { p with validations := vset p.validations c (!(vlookup p.validations c)) }
      { g with players := setPlayer g.players pid p2 }
  else g

/-- The `endRound` handler (host only): every player's score grows by
their count of `true` validation marks, and the game returns to the
lobby.  Validations are not cleared here. -/
def endRound (g : Game) (sid : String) : Game :=
  if sid = g.hostId then
    { g with
      players := g.players.map (fun p =>
        { p with score := p.score + countTrue p.validations })
      status := Status.lobby }
  else g

/-- `[...players.values()].sort((a,b) => a.joinedAt - b.joinedAt)[0]`:
the head of a stable ascending sort, i.e. the first player attaining
the minimum `joinedAt`. -/
def earliest : List Player → Option Player
  | [] => none
  | p :: ps =>
    match earliest ps with
    | none => some p
    | some q => if p.joinedAt ≤ q.joinedAt then some p else some q

/-- The `disconnect` handler: scan the registry for the first game
holding the socket, remove the player, destroy the room when it
empties, otherwise hand the host role to the earliest joiner. -/
def disconnect : Registry → String → Registry
  | [], _ => []
  | (c, g) :: rest, sid =>
    if (getPlayer g.players sid).isSome then
      let ps := delPlayer g.players sid
      if ps.isEmpty then
        ((c, g) :: rest).filter (fun e => !(e.1 == g.code))
      else if sid = g.hostId then
        match earliest ps with
        | some nxt => (c, { g with players := ps, hostId := nxt.id }) :: rest
        | none => (c, { g with players := ps }) :: rest
      else (c, { g with players := ps }) :: rest
    else (c, g) :: disconnect rest sid

/-- The validation mark currently shown for `(pid, c)`. -/
def markOf (g : Game) (pid c : String) : Bool :=
  match getPlayer g.players pid with
  | some p => vlookup p.validations c
  | none => false

/-- The score currently recorded for `pid`. -/
def scoreOf (g : Game) (pid : String) : Option Nat :=
  (getPlayer g.players pid).map (fun p => p.score)

end SJ

namespace SV

/- Embedding of `src/Socket.IO` (the draft-aware variant): only the
parts the claims depend on — the player/game state, the
`playingPlayers` eligibility helper and the `submitAnswers` handler. -/

structure Player where
  id : String
  name : String
  isHost : Bool
  joinedAt : Nat
  submitted : Bool
  answers : AnsMap
  validations : ValMap
  score : Nat
  draft : AnsMap
deriving DecidableEq, Repr

structure Game where
  code : String
  hostId : String
  players : List Player
  status : Status
  round : Nat
  letter : Option String
  categories : List String
  reviewIndex : Nat
  hostPlays : Bool
  endMode : EndMode
deriving DecidableEq, Repr

/-- `game.players.get(sid)`. -/
def getPlayer (ps : List Player) (sid : String) : Option Player :=
  ps.find? (fun p => p.id == sid)

/-- `playingPlayers(game)`: every player except the host when the host
is configured not to play. -/
def playingPlayers (g : Game) : List Player :=
  g.players.filter (fun p => !(p.id == g.hostId && !g.hostPlays))

/-- Result of `submitAnswers`: the new game state plus the payload of
the `progress` broadcast when one is emitted. -/
structure SubmitResult where
  game : Game
  progress : Option (Nat × Nat)
deriving DecidableEq, Repr

/-- The `submitAnswers` handler of the draft-aware variant: the sender
commits `answers || draft || {}`; under end-mode `first` every
not-yet-submitted player is force-committed from their draft and the
game enters review; under end-mode `all` a progress count over the
eligible players is broadcast and the game enters review exactly when
every eligible player has submitted. -/
def submitAnswers (g : Game) (sid : String) (answers : Option AnsMap) : SubmitResult :=
  if g.status = Status.playing then
    match getPlayer g.players sid with
    | none => ⟨g, none⟩
    | some player =>
      let committed :=
        match answers with
        | some a => a
        | none => player.draft
      let players1 := g.players.map (fun p =>
        if p.id == sid then { p with submitted := true, answers := committed } else p)
      if g.endMode = EndMode.first then
        let players2 := players1.map (fun p =>
          if p.submitted then p else { p with submitted := true, answers := p.draft })
        ⟨{ g with players := players2, status := Status.review }, none⟩
      else
        let g1 : Game := { g with players := players1 }
        let submitted := ((playingPlayers g1).filter (fun p => p.submitted)).length
        let total := (playingPlayers g1).length
        if submitted = total then
          ⟨{ g1 with status := Status.review }, some (submitted, total)⟩
        else
          ⟨g1, some (submitted, total)⟩
  else ⟨g, none⟩

end SV


/- Concrete example states used by witnesses. -/

/-- A two-player review-phase room used to witness the scoring claim. -/
def exC1Game : SJ.Game :=
  { code := "AAAAA", hostId := "h", status := Status.review, round := 1,
    letter := some "B", categories := ["Fruit", "Animal"], reviewIndex := 0,
    hostPlays := true, endMode := EndMode.all, randomThemes := false,
    players :=
      [{ id := "h", name := "H", score := 0, submitted := true, answers := [],
         validations := [("Fruit", true), ("Animal", false)], joinedAt := 1 },
       { id := "b", name := "B", score := 2, submitted := true, answers := [],
         validations := [("Fruit", true), ("Animal", true)], joinedAt := 2 }] }

/-- A two-player end-mode-`first` room of the draft-aware variant. -/
def exC2Game : SV.Game :=
  { code := "AAAAA", hostId := "h",
    players :=
      [{ id := "h", name := "H", isHost := true, joinedAt := 1, submitted := false,
         answers := [], validations := [], score := 0, draft := [("Fruit", "Houx")] },
       { id := "b", name := "B", isHost := false, joinedAt := 2, submitted := false,
         answers := [], validations := [], score := 0, draft := [("Fruit", "Brouillon")] }],
    status := Status.playing, round := 1, letter := some "B", categories := ["Fruit"],
    reviewIndex := 0, hostPlays := true, endMode := EndMode.first }

/-- A three-player room of the draft-aware variant whose arbiter does
not play (`hostPlays = false`), end-mode `all`; the arbiter has not
submitted. -/
def exC4Game : SV.Game :=
  { code := "AAAAA", hostId := "h",
    players :=
      [{ id := "h", name := "H", isHost := true, joinedAt := 1, submitted := false,
         answers := [], validations := [], score := 0, draft := [] },
       { id := "b", name := "B", isHost := false, joinedAt := 2, submitted := false,
         answers := [], validations := [], score := 0, draft := [] },
       { id := "d", name := "D", isHost := false, joinedAt := 3, submitted := true,
         answers := [], validations := [], score := 0, draft := [] }],
    status := Status.playing, round := 1, letter := some "B", categories := ["Fruit"],
    reviewIndex := 0, hostPlays := false, endMode := EndMode.all }

/-- A lobby-phase room whose single player already carries game state
(score 3, a validation mark), used to witness the rejoin behaviour. -/
def exC5Game : SJ.Game :=
  { code := "AAAAA", hostId := "h", status := Status.lobby, round := 2,
    letter := some "B", categories := ["Fruit"], reviewIndex := 0, hostPlays := true,
    endMode := EndMode.all, randomThemes := false,
    players :=
      [{ id := "h", name := "H", score := 3, submitted := true, answers := [("Fruit", "Kiwi")],
         validations := [("Fruit", true)], joinedAt := 7 }] }

/-- A three-player room whose arbiter is not the earliest joiner, used
to witness arbiter succession on disconnect. -/
def exC7Game : SJ.Game :=
  { code := "AAAAA", hostId := "h", status := Status.lobby, round := 1,
    letter := some "B", categories := ["Fruit"], reviewIndex := 0, hostPlays := true,
    endMode := EndMode.all, randomThemes := false,
    players :=
      [{ id := "h", name := "H", score := 0, submitted := false, answers := [],
         validations := [], joinedAt := 5 },
       { id := "b", name := "B", score := 2, submitted := false, answers := [],
         validations := [], joinedAt := 3 },
       { id := "d", name := "D", score := 1, submitted := false, answers := [],
         validations := [], joinedAt := 4 }] }

/-- A playing-phase room with an untouched target player, used to
witness the absence of content validation. -/
def exC10Game : SJ.Game :=
  { code := "AAAAA", hostId := "h", status := Status.playing, round := 1,
    letter := some "B", categories := ["Fruit"], reviewIndex := 0, hostPlays := true,
    endMode := EndMode.all, randomThemes := false,
    players :=
      [{ id := "h", name := "H", score := 0, submitted := false, answers := [],
         validations := [], joinedAt := 1 },
       { id := "b", name := "B", score := 4, submitted := false, answers := [],
         validations := [], joinedAt := 2 }] }


/- ===================== Helper lemmas ===================== -/

/-- A filter keeps the whole list exactly when every element passes. -/
theorem length_filter_eq_iff {α : Type} (p : α → Bool) :
    ∀ l : List α, ((l.filter p).length = l.length ↔ ∀ x ∈ l, p x = true) := by
  intro l
  induction l with
  | nil => simp
  | cons a l ih =>
    by_cases ha : p a = true
    · simp [List.filter_cons, ha, ih]
    · have hle := List.length_filter_le p l
      simp only [List.filter_cons, ha]
      constructor
      · intro h
        exfalso
        simp at h
        omega
      · intro h
        exact absurd (h a (List.mem_cons_self a l)) (by simp [ha])

/-- `find?` ignores a filter whose predicate is implied by the search
predicate. -/
theorem find?_filter_of_imp {α : Type} (p q : α → Bool)
    (h : ∀ x, p x = true → q x = true) :
    ∀ l : List α, List.find? p (l.filter q) = List.find? p l := by
  intro l
  induction l with
  | nil => rfl
  | cons a l ih =>
    by_cases hqa : q a = true
    · rw [List.filter_cons_of_pos hqa, List.find?_cons, List.find?_cons]
      cases hpa : p a
      · exact ih
      · rfl
    · have hpa : p a = false := by
        cases hpa2 : p a
        · rfl
        · exact absurd (h a hpa2) hqa
      rw [List.filter_cons_of_neg hqa, List.find?_cons, hpa]
      exact ih

/-- `find?` after an id-preserving in-place update returns the updated
record of the previously found one. -/
theorem SJ.getPlayer_map_update (ps : List SJ.Player) (sid : String)
    (f : SJ.Player → SJ.Player) (hf : ∀ p, (f p).id = p.id) (q : SJ.Player)
    (hq : SJ.getPlayer ps sid = some q) :
    SJ.getPlayer (ps.map (fun p => if p.id == sid then f p else p)) sid = some (f q) := by
  induction ps with
  | nil => simp [SJ.getPlayer] at hq
  | cons a l ih =>
    rw [List.map_cons]
    by_cases hb : (a.id == sid) = true
    · have haq : a = q := by
        unfold SJ.getPlayer at hq
        rw [List.find?_cons, hb] at hq
        exact Option.some.inj hq
      rw [if_pos hb]
      have hfb : ((f a).id == sid) = true := by rw [hf]; exact hb
      unfold SJ.getPlayer
      rw [List.find?_cons, hfb, haq]
    · have hb' : (a.id == sid) = false := Bool.eq_false_iff.mpr hb
      have hq' : SJ.getPlayer l sid = some q := by
        unfold SJ.getPlayer at hq
        rw [List.find?_cons, hb'] at hq
        exact hq
      rw [if_neg hb]
      unfold SJ.getPlayer
      rw [List.find?_cons, hb']
      exact ih hq'

/-- `find?` after an id-preserving update of every record returns the
updated image of the previously found one. -/
theorem SJ.getPlayer_map_all (ps : List SJ.Player) (sid : String)
    (f : SJ.Player → SJ.Player) (hf : ∀ p, (f p).id = p.id) (q : SJ.Player)
    (hq : SJ.getPlayer ps sid = some q) :
    SJ.getPlayer (ps.map f) sid = some (f q) := by
  induction ps with
  | nil => simp [SJ.getPlayer] at hq
  | cons a l ih =>
    rw [List.map_cons]
    by_cases hb : (a.id == sid) = true
    · have haq : a = q := by
        unfold SJ.getPlayer at hq
        rw [List.find?_cons, hb] at hq
        exact Option.some.inj hq
      have hfb : ((f a).id == sid) = true := by rw [hf]; exact hb
      unfold SJ.getPlayer
      rw [List.find?_cons, hfb, haq]
    · have hb' : (a.id == sid) = false := Bool.eq_false_iff.mpr hb
      have hq2 : SJ.getPlayer l sid = some q := by
        unfold SJ.getPlayer at hq
        rw [List.find?_cons, hb'] at hq
        exact hq
      have hfb : ((f a).id == sid) = false := by rw [hf]; exact hb'
      unfold SJ.getPlayer
      rw [List.find?_cons, hfb]
      exact ih hq2

/-- Replacing the matching entries in place, observed through `find?`:
the first match becomes `v`. -/
theorem SJ.getPlayer_map_const (ps : List SJ.Player) (sid : String) (v : SJ.Player)
    (hv : (v.id == sid) = true) :
    (SJ.getPlayer ps sid).isSome = true →
      SJ.getPlayer (ps.map (fun p => if p.id == sid then v else p)) sid = some v := by
  induction ps with
  | nil => intro h; simp [SJ.getPlayer] at h
  | cons a l ih =>
    intro h
    rw [List.map_cons]
    by_cases hb : (a.id == sid) = true
    · rw [if_pos hb]
      unfold SJ.getPlayer
      rw [List.find?_cons, hv]
    · have hb' : (a.id == sid) = false := Bool.eq_false_iff.mpr hb
      have h' : (SJ.getPlayer l sid).isSome = true := by
        unfold SJ.getPlayer at h
        rw [List.find?_cons, hb'] at h
        exact h
      rw [if_neg hb]
      unfold SJ.getPlayer
      rw [List.find?_cons, hb']
      exact ih h'

/-- `players.set` over an existing key, observed through `players.get`. -/
theorem SJ.getPlayer_setPlayer (ps : List SJ.Player) (sid : String) (v : SJ.Player)
    (hv : (v.id == sid) = true) (hmem : (SJ.getPlayer ps sid).isSome = true) :
    SJ.getPlayer (SJ.setPlayer ps sid v) sid = some v := by
  have hany : ps.any (fun p => p.id == sid) = true := by
    rcases List.find?_isSome.mp hmem with ⟨x, hx, hpx⟩
    exact List.any_eq_true.mpr ⟨x, hx, hpx⟩
  unfold SJ.setPlayer
  rw [if_pos hany]
  exact SJ.getPlayer_map_const ps sid v hv hmem

/- ===================== Claims ===================== -/

/-- `find?` over an in-place key update: the first entry holding the
key is found, already carrying the new value. -/
theorem find?_vset_map (vs : ValMap) (c : String) (b : Bool) :
    vs.any (fun e => e.1 == c) = true →
      (vs.map (fun e => if e.1 == c then (c, b) else e)).find? (fun e => e.1 == c)
        = some (c, b) := by
  induction vs with
  | nil => intro h; simp at h
  | cons a l ih =>
    intro h
    rw [List.map_cons]
    by_cases hb : (a.1 == c) = true
    · rw [if_pos hb]
      unfold List.find?
      have hcb : (((c, b) : String × Bool).1 == c) = true := by simp
      rw [hcb]
    · have hb' : (a.1 == c) = false := Bool.eq_false_iff.mpr hb
      have h' : l.any (fun e => e.1 == c) = true := by
        rcases List.any_eq_true.mp h with ⟨x, hx, hpx⟩
        rcases List.mem_cons.mp hx with rfl | hxl
        · exact absurd hpx hb
        · exact List.any_eq_true.mpr ⟨x, hxl, hpx⟩
      rw [if_neg hb]
      rw [List.find?_cons, hb']
      exact ih h'

/-- Reading back a mark just written: `obj[k] = b` then `obj[k]`. -/
theorem vlookup_vset_self (vs : ValMap) (c : String) (b : Bool) :
    vlookup (vset vs c b) c = b := by
  unfold vset
  by_cases h : vs.any (fun e => e.1 == c) = true
  · rw [if_pos h]
    unfold vlookup
    rw [find?_vset_map vs c b h]
    rfl
  · rw [if_neg h]
    unfold vlookup
    rw [List.find?_append]
    have hnone : vs.find? (fun e => e.1 == c) = none := by
      rw [List.find?_eq_none]
      intro x hx hpx
      exact h (List.any_eq_true.mpr ⟨x, hx, hpx⟩)
    rw [hnone]
    simp [List.find?_cons]

/-- C1: with the arbiter calling, `endRound` adds to every player's
score exactly the number of `true` entries of that player's validation
map at call time and sets the status to `lobby`; validations survive
`endRound`, so an immediate second `endRound` adds the same counts
again, and only `startRound` clears validations (with the submitted
flags and committed answers). -/
theorem endRound_scores_twice_startRound_clears
    (g : SJ.Game) (sid : String) (h : sid = g.hostId) :
    (SJ.endRound g sid).status = Status.lobby ∧
    (SJ.endRound g sid).players
      = g.players.map (fun p => { p with score := p.score + countTrue p.validations }) ∧
    (SJ.endRound (SJ.endRound g sid) sid).players
      = g.players.map (fun p =>
          { p with score := p.score + countTrue p.validations + countTrue p.validations }) ∧
    (∀ letter rl cats rpick p, p ∈ (SJ.startRound g sid letter rl cats rpick).players →
      p.validations = [] ∧ p.submitted = false ∧ p.answers = []) := by
  subst h
  refine ⟨?_, ?_, ?_, ?_⟩
  · simp [SJ.endRound]
  · simp [SJ.endRound]
  · simp [SJ.endRound, List.map_map]
  · intro letter rl cats rpick p hp
    unfold SJ.startRound at hp
    rw [if_pos rfl] at hp
    simp only [List.mem_map] at hp
    rcases hp with ⟨a, _, rfl⟩
    exact ⟨rfl, rfl, rfl⟩

/-- C1 witness: the scoring behaviour at a concrete two-player room. -/
theorem endRound_scores_twice_startRound_clears_witness :
    ("h" = exC1Game.hostId) ∧
    ((SJ.endRound exC1Game "h").status = Status.lobby ∧
     (SJ.endRound exC1Game "h").players
       = exC1Game.players.map (fun p => { p with score := p.score + countTrue p.validations }) ∧
     (SJ.endRound (SJ.endRound exC1Game "h") "h").players
       = exC1Game.players.map (fun p =>
           { p with score := p.score + countTrue p.validations + countTrue p.validations }) ∧
     (∀ letter rl cats rpick p,
        p ∈ (SJ.startRound exC1Game "h" letter rl cats rpick).players →
          p.validations = [] ∧ p.submitted = false ∧ p.answers = [])) :=
  ⟨rfl, endRound_scores_twice_startRound_clears exC1Game "h" rfl⟩

/-- C3 counterexample: in a freshly created room, `startRound` reaches
status `playing` and a single `endRound` then moves the status
directly to `lobby`, never passing through `review` — the claimed
cycle invariant fails on the code, which has no status guards. -/
theorem playing_to_lobby_directly_reachable :
    (SJ.mapGet (SJ.createGame [] "h" "AAAAA" "Alice" none true "all" false 100) "AAAAA").map
        (fun g =>
          ((SJ.startRound g "h" (some "B") "A" none []).status,
           (SJ.endRound (SJ.startRound g "h" (some "B") "A" none []) "h").status))
      = some (Status.playing, Status.lobby) := by
  rfl

/-- C3 amended: the arbiter's `startRound`, `forceReview` and
`endRound` set the status to `playing`, `review` and `lobby`
respectively from ANY current status (no guard), and `submitAnswers`
either advances to `review` or leaves the status unchanged; the
lobby-playing-review cycle is one reachable path but not the only
one. -/
theorem status_transitions_unguarded (g : SJ.Game) (sid : String) (h : sid = g.hostId) :
    (∀ letter rl cats rpick,
      (SJ.startRound g sid letter rl cats rpick).status = Status.playing) ∧
    (SJ.forceReview g sid).status = Status.review ∧
    (SJ.endRound g sid).status = Status.lobby ∧
    (∀ sid2 a, (SJ.submitAnswers g sid2 a).status = Status.review ∨
               (SJ.submitAnswers g sid2 a).status = g.status) := by
  subst h
  refine ⟨?_, ?_, ?_, ?_⟩
  · intro letter rl cats rpick
    simp [SJ.startRound]
  · simp [SJ.forceReview]
  · simp [SJ.endRound]
  · intro sid2 a
    simp only [SJ.submitAnswers]
    split
    · split
      · left; rfl
      · right; rfl
    · right; rfl

/-- C3 amended witness: the unguarded transitions at a concrete room. -/
theorem status_transitions_unguarded_witness :
    ("h" = exC1Game.hostId) ∧
    ((∀ letter rl cats rpick,
       (SJ.startRound exC1Game "h" letter rl cats rpick).status = Status.playing) ∧
     (SJ.forceReview exC1Game "h").status = Status.review ∧
     (SJ.endRound exC1Game "h").status = Status.lobby ∧
     (∀ sid2 a, (SJ.submitAnswers exC1Game sid2 a).status = Status.review ∨
                (SJ.submitAnswers exC1Game sid2 a).status = exC1Game.status)) :=
  ⟨rfl, status_transitions_unguarded exC1Game "h" rfl⟩

/-- C9: the arbiter toggling a `(player, category)` mark that currently
reads as invalid (in particular one never touched, which JS reads as
`undefined`, i.e. `false`) sets it to valid, and toggling again
restores invalid. -/
theorem toggleValidation_twice (g : SJ.Game) (sid pid c : String) (q : SJ.Player)
    (hh : sid = g.hostId) (hq : SJ.getPlayer g.players pid = some q)
    (hfresh : vlookup q.validations c = false) :
    SJ.markOf (SJ.toggleValidation g sid pid c) pid c = true ∧
    SJ.markOf (SJ.toggleValidation (SJ.toggleValidation g sid pid c) sid pid c) pid c
      = false := by
  subst hh
  have hq' : g.players.find? (fun p => p.id == pid) = some q := hq
  have hq0 := List.find?_some hq'
  have hqid : (q.id == pid) = true := hq0
  have hmem : (SJ.getPlayer g.players pid).isSome = true := by rw [hq]; rfl
  have hg1 : SJ.toggleValidation g g.hostId pid c
      = { g with players := SJ.setPlayer g.players pid ({ q with validations := vset q.validations c true }) } := by
    unfold SJ.toggleValidation
    rw [if_pos rfl, hq]
    simp only [hfresh, Bool.not_false]
  have h1 : SJ.getPlayer (SJ.setPlayer g.players pid ({ q with validations := vset q.validations c true })) pid
      = some ({ q with validations := vset q.validations c true }) :=
    SJ.getPlayer_setPlayer _ _ _ hqid hmem
  have hmark1 : SJ.markOf (SJ.toggleValidation g g.hostId pid c) pid c = true := by
    rw [hg1]
    unfold SJ.markOf
    rw [h1]
    exact vlookup_vset_self q.validations c true
  refine ⟨hmark1, ?_⟩
  have hmem2 : (SJ.getPlayer (SJ.setPlayer g.players pid ({ q with validations := vset q.validations c true })) pid).isSome = true := by
    rw [h1]; rfl
  have hvl : vlookup (vset q.validations c true) c = true := vlookup_vset_self _ _ _
  have hg2 : SJ.toggleValidation (SJ.toggleValidation g g.hostId pid c) g.hostId pid c
      = { g with players := SJ.setPlayer (SJ.setPlayer g.players pid ({ q with validations := vset q.validations c true })) pid ({ q with validations := vset (vset q.validations c true) c false }) } := by
    rw [hg1]
    unfold SJ.toggleValidation
    rw [if_pos rfl, h1]
    simp only [hvl, Bool.not_true]
  rw [hg2]
  unfold SJ.markOf
  dsimp only
  rw [SJ.getPlayer_setPlayer _ pid ({ q with validations := vset (vset q.validations c true) c false }) hqid hmem2]
  exact vlookup_vset_self _ _ _

/-- C9 witness: double toggle on a never-touched pair in a concrete
room. -/
theorem toggleValidation_twice_witness :
    ("h" = exC1Game.hostId ∧
     SJ.getPlayer exC1Game.players "b"
       = some { id := "b", name := "B", score := 2, submitted := true, answers := [],
                validations := [("Fruit", true), ("Animal", true)], joinedAt := 2 } ∧
     vlookup [("Fruit", true), ("Animal", true)] "Sport" = false) ∧
    (SJ.markOf (SJ.toggleValidation exC1Game "h" "b" "Sport") "b" "Sport" = true ∧
     SJ.markOf (SJ.toggleValidation (SJ.toggleValidation exC1Game "h" "b" "Sport")
        "h" "b" "Sport") "b" "Sport" = false) :=
  ⟨⟨rfl, rfl, rfl⟩,
   toggleValidation_twice exC1Game "h" "b" "Sport" _ rfl rfl rfl⟩


/-- C2: in the draft-aware variant, with end-mode `first` and status
`playing`, any present player's `submitAnswers` puts the room in
`review` and force-commits every not-yet-submitted player: their
submitted flag becomes true and their committed answers become their
draft, while the sender commits the supplied answers (their draft if
none were supplied). -/
theorem sio_first_submit_forces_review (g : SV.Game) (sid : String)
    (answers : Option AnsMap) (q : SV.Player)
    (hm : g.endMode = EndMode.first) (hst : g.status = Status.playing)
    (hq : SV.getPlayer g.players sid = some q) :
    (SV.submitAnswers g sid answers).game.status = Status.review ∧
    (SV.submitAnswers g sid answers).game.players
      = g.players.map (fun p =>
          if p.id == sid then
            { p with submitted := true,
                     answers := match answers with | some a => a | none => q.draft }
          else if p.submitted then p
          else { p with submitted := true, answers := p.draft }) ∧
    (∀ p ∈ (SV.submitAnswers g sid answers).game.players, p.submitted = true) := by
  have hres : SV.submitAnswers g sid answers
      = ⟨{ g with
             players := (g.players.map (fun p =>
               if p.id == sid then
                 { p with submitted := true,
                          answers := match answers with | some a => a | none => q.draft }
               else p)).map (fun p =>
                 if p.submitted then p else { p with submitted := true, answers := p.draft }),
             status := Status.review }, none⟩ := by
    simp only [SV.submitAnswers, hst, hq, hm, eq_self_iff_true, if_true]
  rw [hres]
  refine ⟨rfl, ?_, ?_⟩
  · dsimp only
    rw [List.map_map]
    apply List.map_congr_left
    intro p _
    by_cases hid : (p.id == sid) = true
    · simp [Function.comp, hid]
    · by_cases hsub : p.submitted = true
      · simp [Function.comp, hid, hsub]
      · simp [Function.comp, hid, hsub]
  · intro p hp
    dsimp only at hp
    rcases List.mem_map.mp hp with ⟨r, _, rfl⟩
    by_cases hsub : r.submitted = true
    · simp [hsub]
    · simp [hsub]

/-- C2 witness: a concrete first-mode submission force-commits the
other player from their draft. -/
theorem sio_first_submit_forces_review_witness :
    (exC2Game.endMode = EndMode.first ∧ exC2Game.status = Status.playing ∧
     SV.getPlayer exC2Game.players "b"
       = some { id := "b", name := "B", isHost := false, joinedAt := 2, submitted := false,
                answers := [], validations := [], score := 0,
                draft := [("Fruit", "Brouillon")] }) ∧
    ((SV.submitAnswers exC2Game "b" (some [("Fruit", "Banane")])).game.status
        = Status.review ∧
     (SV.submitAnswers exC2Game "b" (some [("Fruit", "Banane")])).game.players
        = exC2Game.players.map (fun p =>
            if p.id == "b" then
              { p with submitted := true,
                       answers := match some [("Fruit", "Banane")] with
                                  | some a => a
                                  | none => [("Fruit", "Brouillon")] }
            else if p.submitted then p
            else { p with submitted := true, answers := p.draft }) ∧
     (∀ p ∈ (SV.submitAnswers exC2Game "b" (some [("Fruit", "Banane")])).game.players,
        p.submitted = true)) :=
  ⟨⟨rfl, rfl, rfl⟩,
   sio_first_submit_forces_review exC2Game "b" (some [("Fruit", "Banane")]) _ rfl rfl rfl⟩

/-- C4: in the draft-aware variant, with the arbiter not playing and
end-mode `all`, the `progress` payload counts submitted and total over
the eligible (non-arbiter) player records only, and the room advances
to `review` exactly when every eligible player has submitted —
regardless of the arbiter record's own submitted flag. -/
theorem sio_progress_counts_eligible_only (g : SV.Game) (sid : String)
    (answers : Option AnsMap) (q : SV.Player)
    (hhp : g.hostPlays = false) (hst : g.status = Status.playing)
    (hm : g.endMode = EndMode.all)
    (hq : SV.getPlayer g.players sid = some q) :
    ((SV.submitAnswers g sid answers).progress
        = some ((((g.players.map (fun p =>
              if p.id == sid then
                { p with submitted := true,
                         answers := match answers with | some a => a | none => q.draft }
              else p)).filter (fun p => !(p.id == g.hostId))).filter
                (fun p => p.submitted)).length,
            ((g.players.map (fun p =>
              if p.id == sid then
                { p with submitted := true,
                         answers := match answers with | some a => a | none => q.draft }
              else p)).filter (fun p => !(p.id == g.hostId))).length)) ∧
    ((SV.submitAnswers g sid answers).game.status = Status.review ↔
      ∀ p ∈ (g.players.map (fun p =>
          if p.id == sid then
            { p with submitted := true,
                     answers := match answers with | some a => a | none => q.draft }
          else p)).filter (fun p => !(p.id == g.hostId)), p.submitted = true) := by
  have hmf : ¬(g.endMode = EndMode.first) := by simp [hm]
  have hpp : ∀ ps : List SV.Player,
      ps.filter (fun p => !(p.id == g.hostId && !g.hostPlays))
        = ps.filter (fun p => !(p.id == g.hostId)) := by
    intro ps
    apply List.filter_congr
    intro p _
    rw [hhp]
    simp
  have hres : SV.submitAnswers g sid answers
      = (let players1 := g.players.map (fun p =>
           if p.id == sid then
             { p with submitted := true,
                      answers := match answers with | some a => a | none => q.draft }
           else p);
         let elig := players1.filter (fun p => !(p.id == g.hostId));
         let submitted := (elig.filter (fun p => p.submitted)).length;
         let total := elig.length;
         if submitted = total then
           ⟨{ g with players := players1, status := Status.review }, some (submitted, total)⟩
         else
           ⟨{ g with players := players1 }, some (submitted, total)⟩) := by
    simp only [SV.submitAnswers, hst, hq, if_neg hmf, SV.playingPlayers,
      eq_self_iff_true, if_true]
    rw [hpp]
  rw [hres]
  dsimp only
  constructor
  · split
    · rfl
    · rfl
  · split
    next hall =>
      constructor
      · intro _
        exact (length_filter_eq_iff (fun p : SV.Player => p.submitted) _).mp hall
      · intro _
        rfl
    next hall =>
      constructor
      · intro hcon
        simp [hst] at hcon
      · intro hallp
        exact absurd ((length_filter_eq_iff (fun p : SV.Player => p.submitted) _).mpr hallp) hall

/-- C4 witness: with a non-playing arbiter who has not submitted, the
second eligible player's submission yields progress 2 of 2 and enters
review. -/
theorem sio_progress_counts_eligible_only_witness :
    (exC4Game.hostPlays = false ∧ exC4Game.status = Status.playing ∧
     exC4Game.endMode = EndMode.all ∧
     SV.getPlayer exC4Game.players "b"
       = some { id := "b", name := "B", isHost := false, joinedAt := 2, submitted := false,
                answers := [], validations := [], score := 0, draft := [] }) ∧
    (((SV.submitAnswers exC4Game "b" (some [("Fruit", "Banane")])).progress
        = some ((((exC4Game.players.map (fun p =>
              if p.id == "b" then
                { p with submitted := true,
                         answers := match some [("Fruit", "Banane")] with
                                    | some a => a
                                    | none => [] }
              else p)).filter (fun p => !(p.id == exC4Game.hostId))).filter
                (fun p => p.submitted)).length,
            ((exC4Game.players.map (fun p =>
              if p.id == "b" then
                { p with submitted := true,
                         answers := match some [("Fruit", "Banane")] with
                                    | some a => a
                                    | none => [] }
              else p)).filter (fun p => !(p.id == exC4Game.hostId))).length)) ∧
    ((SV.submitAnswers exC4Game "b" (some [("Fruit", "Banane")])).game.status
        = Status.review ↔
      ∀ p ∈ (exC4Game.players.map (fun p =>
          if p.id == "b" then
            { p with submitted := true,
                     answers := match some [("Fruit", "Banane")] with
                                | some a => a
                                | none => [] }
          else p)).filter (fun p => !(p.id == exC4Game.hostId)), p.submitted = true)) :=
  ⟨⟨rfl, rfl, rfl, rfl⟩,
   sio_progress_counts_eligible_only exC4Game "b" (some [("Fruit", "Banane")]) _
     rfl rfl rfl rfl⟩

/-- C5 counterexample: a reachable room whose (host) player has score 1
after a round; rejoining with the same connection id resets the score
to 0 and the whole record to defaults — the claim that only the name
changes and the score is preserved is false. -/
theorem rejoin_resets_score :
    (SJ.mapGet (SJ.createGame [] "h" "AAAAA" "Alice" none true "all" false 100) "AAAAA").map
        (fun g =>
          let g1 := SJ.toggleValidation g "h" "h" "Fruit"
          let g2 := SJ.endRound g1 "h"
          let g3 := SJ.joinGame g2 "h" "Henri" 200
          (SJ.scoreOf g2 "h", g2.status, SJ.scoreOf g3 "h",
           (SJ.getPlayer g3.players "h").map (fun p => p.joinedAt)))
      = some (some 1, Status.lobby, some 0, some 200) := by
  rfl

/-- C5 amended: a join from a connection that already has a Player
record is accepted only while the room is in the lobby, and then
REPLACES the record wholesale with a fresh default one — name from the
supplied name (default if empty), score 0, submitted false, empty
answers and validations, new join timestamp — keeping its roster
position; no game-state field survives. -/
theorem joinGame_replaces_record (g : SJ.Game) (sid name : String) (now : Nat)
    (hst : g.status = Status.lobby)
    (hmem : (SJ.getPlayer g.players sid).isSome = true) :
    (SJ.joinGame g sid name now).players
      = g.players.map (fun p => if p.id == sid then SJ.mkPlayer sid "Joueur" name now else p) ∧
    SJ.getPlayer (SJ.joinGame g sid name now).players sid
      = some (SJ.mkPlayer sid "Joueur" name now) := by
  have hrepl : SJ.joinGame g sid name now
      = { g with players := g.players.map (fun p => if p.id == sid then SJ.mkPlayer sid "Joueur" name now else p) } := by
    have hany : g.players.any (fun p => p.id == sid) = true := by
      rcases List.find?_isSome.mp hmem with ⟨x, hx, hpx⟩
      exact List.any_eq_true.mpr ⟨x, hx, hpx⟩
    unfold SJ.joinGame SJ.setPlayer
    rw [if_pos hst, if_pos hany]
  rw [hrepl]
  refine ⟨rfl, ?_⟩
  have hvid : ((SJ.mkPlayer sid "Joueur" name now).id == sid) = true := by
    simp [SJ.mkPlayer]
  exact SJ.getPlayer_map_const g.players sid (SJ.mkPlayer sid "Joueur" name now) hvid hmem

/-- C5 amended witness: rejoining the concrete lobby room replaces the
player's record with fresh defaults. -/
theorem joinGame_replaces_record_witness :
    (exC5Game.status = Status.lobby ∧
     (SJ.getPlayer exC5Game.players "h").isSome = true) ∧
    ((SJ.joinGame exC5Game "h" "Henri" 200).players
       = exC5Game.players.map
           (fun p => if p.id == "h" then SJ.mkPlayer "h" "Joueur" "Henri" 200 else p) ∧
     SJ.getPlayer (SJ.joinGame exC5Game "h" "Henri" 200).players "h"
       = some (SJ.mkPlayer "h" "Joueur" "Henri" 200)) :=
  ⟨⟨rfl, rfl⟩, joinGame_replaces_record exC5Game "h" "Henri" 200 rfl rfl⟩

/-- C6 counterexample: `createGame` performs no collision retry — when
the generated code equals a live room's code, `games.set` overwrites
that room: after two creations drawing the same code the registry
holds a single room, the second one. -/
theorem createGame_overwrites_on_collision :
    (SJ.mapGet (SJ.createGame [] "s1" "AAAAA" "Ann" none true "all" false 10) "AAAAA").map
        SJ.Game.hostId = some "s1" ∧
    (SJ.createGame (SJ.createGame [] "s1" "AAAAA" "Ann" none true "all" false 10)
        "s2" "AAAAA" "Bob" none true "all" false 20).length = 1 ∧
    (SJ.mapGet (SJ.createGame (SJ.createGame [] "s1" "AAAAA" "Ann" none true "all" false 10)
        "s2" "AAAAA" "Bob" none true "all" false 20) "AAAAA").map SJ.Game.hostId
      = some "s2" :=
  ⟨rfl, rfl, rfl⟩

/-- C6 amended: `createGame` stores the new Room under the generated
code unconditionally, with no collision retry; whenever the generated
code is fresh (differs from every live code) no existing entry is
touched — the new room is stored in lobby status under its code, every
other code's lookup is unchanged, and the registry grows by one — but
on a collision the existing room's entry is overwritten. -/
theorem createGame_fresh_code (gs : SJ.Registry) (sockId code name : String)
    (cats : Option (List String)) (hostPlays : Bool) (endMode : String)
    (randomThemes : Bool) (now : Nat)
    (hfresh : ∀ e ∈ gs, e.1 ≠ code) :
    ((SJ.mapGet (SJ.createGame gs sockId code name cats hostPlays endMode
        randomThemes now) code).map
          (fun game => (game.code, game.status, game.hostId, game.round, game.letter))
        = some (code, Status.lobby, sockId, 0, none)) ∧
    (∀ k, k ≠ code → SJ.mapGet (SJ.createGame gs sockId code name cats hostPlays endMode
        randomThemes now) k = SJ.mapGet gs k) ∧
    (SJ.createGame gs sockId code name cats hostPlays endMode randomThemes now).length
      = gs.length + 1 := by
  have hnotany : ¬ (gs.any (fun e => e.1 == code) = true) := by
    intro h
    rcases List.any_eq_true.mp h with ⟨e, he, hpe⟩
    exact hfresh e he (by simpa using hpe)
  have happ : SJ.createGame gs sockId code name cats hostPlays endMode randomThemes now
      = gs ++ [(code,
          { code := code, hostId := sockId, status := Status.lobby, round := 0,
            letter := none,
            categories := match cats with
              | some cs => if cs.isEmpty then DEFAULT_CATEGORIES else cs
              | none => DEFAULT_CATEGORIES,
            reviewIndex := 0, hostPlays := hostPlays,
            endMode := if endMode == "first" then EndMode.first else EndMode.all,
            randomThemes := randomThemes,
            players := [SJ.mkPlayer sockId "Maître" name now] })] := by
    simp only [SJ.createGame, SJ.mapSet]
    rw [if_neg hnotany]
  have hnone : gs.find? (fun e : String × SJ.Game => e.1 == code) = none := by
    rw [List.find?_eq_none]
    intro x hx hpx
    exact hfresh x hx (by simpa using hpx)
  rw [happ]
  refine ⟨?_, ?_, ?_⟩
  · unfold SJ.mapGet
    rw [List.find?_append, hnone]
    simp [List.find?_cons]
  · intro k hk
    unfold SJ.mapGet
    rw [List.find?_append]
    have hck : (code == k) = false := by
      simp [Ne.symm hk]
    cases hfind : gs.find? (fun e : String × SJ.Game => e.1 == k) with
    | some e => simp [hfind]
    | none => simp [hfind, List.find?_cons, hck]
  · simp

/-- C6 amended witness: creating a second room under a fresh code adds
it without disturbing the first. -/
theorem createGame_fresh_code_witness :
    (∀ e ∈ SJ.createGame [] "s1" "BBBBB" "Ann" none true "all" false 10, e.1 ≠ "AAAAA") ∧
    (((SJ.mapGet (SJ.createGame (SJ.createGame [] "s1" "BBBBB" "Ann" none true "all"
        false 10) "s2" "AAAAA" "Bob" none true "all" false 20) "AAAAA").map
          (fun game => (game.code, game.status, game.hostId, game.round, game.letter))
        = some ("AAAAA", Status.lobby, "s2", 0, none)) ∧
    (∀ k, k ≠ "AAAAA" → SJ.mapGet (SJ.createGame (SJ.createGame [] "s1" "BBBBB" "Ann" none
        true "all" false 10) "s2" "AAAAA" "Bob" none true "all" false 20) k
        = SJ.mapGet (SJ.createGame [] "s1" "BBBBB" "Ann" none true "all" false 10) k) ∧
    (SJ.createGame (SJ.createGame [] "s1" "BBBBB" "Ann" none true "all" false 10)
        "s2" "AAAAA" "Bob" none true "all" false 20).length
      = (SJ.createGame [] "s1" "BBBBB" "Ann" none true "all" false 10).length + 1) :=
  ⟨by decide,
   createGame_fresh_code (SJ.createGame [] "s1" "BBBBB" "Ann" none true "all" false 10)
     "s2" "AAAAA" "Bob" none true "all" false 20 (by decide)⟩

/-- `disconnect` walks past a room that does not hold the departing
socket. -/
theorem SJ.disconnect_cons_miss (c' : String) (g' : SJ.Game) (rest : SJ.Registry)
    (sid : String) (h : (SJ.getPlayer g'.players sid).isSome = false) :
    SJ.disconnect ((c', g') :: rest) sid = (c', g') :: SJ.disconnect rest sid := by
  unfold SJ.disconnect
  rw [if_neg (by simp [h])]
  congr 1
  rw [SJ.disconnect.eq_def]

/-- `disconnect` leaves untouched any prefix of rooms that do not hold
the departing socket. -/
theorem SJ.disconnect_skip (sid : String) : ∀ pre rest : SJ.Registry,
    (∀ e ∈ pre, (SJ.getPlayer e.2.players sid).isSome = false) →
    SJ.disconnect (pre ++ rest) sid = pre ++ SJ.disconnect rest sid := by
  intro pre
  induction pre with
  | nil => intro rest _; rfl
  | cons e pre ih =>
    intro rest hpre
    obtain ⟨c', g'⟩ := e
    have h1 : (SJ.getPlayer g'.players sid).isSome = false :=
      hpre (c', g') (List.mem_cons_self _ _)
    show SJ.disconnect ((c', g') :: (pre ++ rest)) sid = _
    rw [SJ.disconnect_cons_miss c' g' (pre ++ rest) sid h1, List.cons_append]
    exact congrArg (List.cons (c', g'))
      (ih rest (fun e he => hpre e (List.mem_cons_of_mem _ he)))

/-- Registry lookup skips a prefix of other codes. -/
theorem SJ.mapGet_append (c : String) : ∀ pre rest : SJ.Registry,
    (∀ e ∈ pre, e.1 ≠ c) → SJ.mapGet (pre ++ rest) c = SJ.mapGet rest c := by
  intro pre
  induction pre with
  | nil => intro rest _; rfl
  | cons e pre ih =>
    intro rest hk
    obtain ⟨c', g'⟩ := e
    have h1 : (c' == c) = false := by
      simpa using hk (c', g') (List.mem_cons_self _ _)
    show SJ.mapGet ((c', g') :: (pre ++ rest)) c = _
    unfold SJ.mapGet
    rw [List.find?_cons, h1]
    exact ih rest (fun e he => hk e (List.mem_cons_of_mem _ he))

/-- The head of the `joinedAt`-ascending stable sort is a member
attaining the minimum join timestamp. -/
theorem SJ.earliest_spec : ∀ ps : List SJ.Player, ps ≠ [] →
    ∃ r, SJ.earliest ps = some r ∧ r ∈ ps ∧ ∀ x ∈ ps, r.joinedAt ≤ x.joinedAt := by
  intro ps
  induction ps with
  | nil => intro h; exact absurd rfl h
  | cons p l ih =>
    intro _
    by_cases hl : l = []
    · subst hl
      refine ⟨p, rfl, List.mem_cons_self p [], ?_⟩
      intro x hx
      rcases List.mem_singleton.mp hx with rfl
      exact le_refl _
    · rcases ih hl with ⟨r, hr, hrmem, hrmin⟩
      by_cases hle : p.joinedAt ≤ r.joinedAt
      · refine ⟨p, ?_, List.mem_cons_self p l, ?_⟩
        · show SJ.earliest (p :: l) = some p
          unfold SJ.earliest
          rw [hr]
          show (if p.joinedAt ≤ r.joinedAt then some p else some r) = some p
          rw [if_pos hle]
        · intro x hx
          rcases List.mem_cons.mp hx with rfl | hxl
          · exact le_refl _
          · exact le_trans hle (hrmin x hxl)
      · refine ⟨r, ?_, List.mem_cons_of_mem p hrmem, ?_⟩
        · show SJ.earliest (p :: l) = some r
          unfold SJ.earliest
          rw [hr]
          show (if p.joinedAt ≤ r.joinedAt then some p else some r) = some r
          rw [if_neg hle]
        · intro x hx
          rcases List.mem_cons.mp hx with rfl | hxl
          · omega
          · exact hrmin x hxl

/-- C7 amended: `disconnect` cleans only the FIRST registry room (in
insertion order) holding the departing socket: there the player is
removed, a room whose roster empties stops resolving in the registry,
and a departing arbiter is replaced by the remaining player with the
earliest join timestamp (the head of the stable ascending sort); the
lookup of every other room code is unchanged — in particular a second
room holding the same socket keeps the stale record, because the
handler breaks after the first match. -/
theorem disconnect_removes_and_reassigns (pre post : List (String × SJ.Game))
    (c sid : String) (g : SJ.Game)
    (hpre : ∀ e ∈ pre, (SJ.getPlayer e.2.players sid).isSome = false)
    (hkeys : ∀ e ∈ pre, e.1 ≠ c)
    (hc : g.code = c)
    (hmem : (SJ.getPlayer g.players sid).isSome = true) :
    (SJ.delPlayer g.players sid = [] →
       SJ.mapGet (SJ.disconnect (pre ++ (c, g) :: post) sid) c = none) ∧
    (SJ.delPlayer g.players sid ≠ [] →
       SJ.mapGet (SJ.disconnect (pre ++ (c, g) :: post) sid) c
         = some { g with
             players := SJ.delPlayer g.players sid,
             hostId := if sid = g.hostId
               then (match SJ.earliest (SJ.delPlayer g.players sid) with
                     | some nxt => nxt.id
                     | none => g.hostId)
               else g.hostId }) ∧
    (∀ ps : List SJ.Player, ps ≠ [] →
       ∃ r, SJ.earliest ps = some r ∧ r ∈ ps ∧ ∀ x ∈ ps, r.joinedAt ≤ x.joinedAt) ∧
    (∀ k, k ≠ c →
       SJ.mapGet (SJ.disconnect (pre ++ (c, g) :: post) sid) k
         = SJ.mapGet (pre ++ (c, g) :: post) k) := by
  have hskip := SJ.disconnect_skip sid pre ((c, g) :: post) hpre
  refine ⟨?_, ?_, SJ.earliest_spec, ?_⟩
  · intro hdel
    rw [hskip, SJ.mapGet_append c pre _ hkeys]
    have hstep : SJ.disconnect ((c, g) :: post) sid
        = ((c, g) :: post).filter (fun e => !(e.1 == g.code)) := by
      unfold SJ.disconnect
      rw [if_pos hmem]
      simp only [hdel, List.isEmpty_nil, if_true]
    rw [hstep]
    unfold SJ.mapGet
    rw [List.find?_eq_none.mpr ?hall]
    case hall =>
      intro x hx
      have hxk := (List.mem_filter.mp hx).2
      rw [← hc]
      simpa using hxk
    rfl
  · intro hdel
    rw [hskip, SJ.mapGet_append c pre _ hkeys]
    have hne : (SJ.delPlayer g.players sid).isEmpty = false := by
      rw [← Bool.not_eq_true, List.isEmpty_iff]
      exact hdel
    by_cases hh : sid = g.hostId
    · rcases SJ.earliest_spec (SJ.delPlayer g.players sid) hdel with ⟨r, hr, _, _⟩
      have hstep : SJ.disconnect ((c, g) :: post) sid
          = (c, { g with players := SJ.delPlayer g.players sid, hostId := r.id }) :: post := by
        unfold SJ.disconnect
        rw [if_pos hmem]
        simp only [hne, Bool.false_eq_true, if_false, if_pos hh, hr]
      rw [hstep]
      unfold SJ.mapGet
      rw [List.find?_cons]
      have hcc : ((c : String) == c) = true := by simp
      rw [hcc, hr, if_pos hh]
      rfl
    · have hstep : SJ.disconnect ((c, g) :: post) sid
          = (c, { g with players := SJ.delPlayer g.players sid }) :: post := by
        unfold SJ.disconnect
        rw [if_pos hmem]
        simp only [hne, Bool.false_eq_true, if_false, if_neg hh]
      rw [hstep]
      unfold SJ.mapGet
      rw [List.find?_cons]
      have hcc : ((c : String) == c) = true := by simp
      rw [hcc, if_neg hh]
      rfl
  · intro k hk
    rw [hskip]
    have hck : ((c : String) == k) = false := by
      simpa using Ne.symm hk
    have hcore : (SJ.disconnect ((c, g) :: post) sid).find? (fun e => e.1 == k)
        = ((c, g) :: post).find? (fun e => e.1 == k) := by
      by_cases hdel : SJ.delPlayer g.players sid = []
      · have hstep : SJ.disconnect ((c, g) :: post) sid
            = ((c, g) :: post).filter (fun e => !(e.1 == g.code)) := by
          unfold SJ.disconnect
          rw [if_pos hmem]
          simp only [hdel, List.isEmpty_nil, if_true]
        rw [hstep]
        apply find?_filter_of_imp
        intro x hx
        have hxk : x.1 = k := by simpa using hx
        rw [hxk, hc]
        simpa using hk
      · have hne : (SJ.delPlayer g.players sid).isEmpty = false := by
          rw [← Bool.not_eq_true, List.isEmpty_iff]
          exact hdel
        by_cases hh : sid = g.hostId
        · rcases SJ.earliest_spec (SJ.delPlayer g.players sid) hdel with ⟨r, hr, -, -⟩
          have hstep : SJ.disconnect ((c, g) :: post) sid
              = (c, { g with players := SJ.delPlayer g.players sid, hostId := r.id }) :: post := by
            unfold SJ.disconnect
            rw [if_pos hmem]
            simp only [hne, Bool.false_eq_true, if_false, if_pos hh, hr]
          rw [hstep, List.find?_cons, List.find?_cons, hck]
        · have hstep : SJ.disconnect ((c, g) :: post) sid
              = (c, { g with players := SJ.delPlayer g.players sid }) :: post := by
            unfold SJ.disconnect
            rw [if_pos hmem]
            simp only [hne, Bool.false_eq_true, if_false, if_neg hh]
          rw [hstep, List.find?_cons, List.find?_cons, hck]
    unfold SJ.mapGet
    rw [List.find?_append, List.find?_append, hcore]

/-- C7 counterexample: one socket can sit in two lobby rooms (nothing
in `joinGame` prevents it), and `disconnect` breaks after the first
registry room holding it — the socket's record survives in the second
room, so "for every room, disconnect of a connection present in its
roster removes that Player" is false. -/
theorem disconnect_skips_second_room :
    (let gs1 := SJ.createGame (SJ.createGame [] "h1" "AAAAA" "Ann" none true "all" false 10)
         "h2" "BBBBB" "Bob" none true "all" false 20
     let gs3 := SJ.joinGameR (SJ.joinGameR gs1 "s" "AAAAA" "Sam" 30) "s" "BBBBB" "Sam" 40
     let gs4 := SJ.disconnect gs3 "s"
     ((SJ.mapGet gs3 "AAAAA").map (fun g => (SJ.getPlayer g.players "s").isSome),
      (SJ.mapGet gs3 "BBBBB").map (fun g => (SJ.getPlayer g.players "s").isSome),
      (SJ.mapGet gs4 "AAAAA").map (fun g => (SJ.getPlayer g.players "s").isSome),
      (SJ.mapGet gs4 "BBBBB").map (fun g => (SJ.getPlayer g.players "s").isSome)))
      = (some true, some true, some false, some true) := by
  rfl

/-- C7 witness: disconnecting the arbiter of a concrete three-player
room keeps the room and hands the arbiter role to the earliest
joiner. -/
theorem disconnect_removes_and_reassigns_witness :
    (SJ.delPlayer exC7Game.players "h" ≠ [] ∧ exC7Game.code = "AAAAA" ∧
     (SJ.getPlayer exC7Game.players "h").isSome = true) ∧
    (SJ.mapGet (SJ.disconnect ([] ++ ("AAAAA", exC7Game) :: []) "h") "AAAAA"
       = some { exC7Game with
           players := SJ.delPlayer exC7Game.players "h",
           hostId := if "h" = exC7Game.hostId
             then (match SJ.earliest (SJ.delPlayer exC7Game.players "h") with
                   | some nxt => nxt.id
                   | none => exC7Game.hostId)
             else exC7Game.hostId }) :=
  ⟨⟨by decide, rfl, rfl⟩,
   (disconnect_removes_and_reassigns [] [] "AAAAA" "h" exC7Game
      (fun e he => absurd he (List.not_mem_nil e))
      (fun e he => absurd he (List.not_mem_nil e))
      rfl rfl).2.1 (by decide)⟩

/-- C8 counterexample: after navigating to cursor 5 over six
categories, ending the round and starting a new round with a shorter
explicit category list, the cursor (untouched by `startRound`) is 5
against 2 categories — outside `[0, categories.length - 1]` in a
reachable state. -/
theorem review_cursor_escapes_range :
    (SJ.mapGet (SJ.createGame [] "h" "AAAAA" "Alice" none true "all" false 100) "AAAAA").map
        (fun g =>
          let g1 := SJ.startRound g "h" (some "B") "A" none []
          let g2 := SJ.submitAnswers g1 "h" (some [("Fruit", "Banane")])
          let g3 := SJ.setReviewIndex g2 "h" 5
          let g4 := SJ.endRound g3 "h"
          let g5 := SJ.startRound g4 "h" (some "C") "A" (some ["Pays", "Ville"]) []
          (g2.status, g3.reviewIndex, g5.categories.length, g5.reviewIndex,
           decide (g5.reviewIndex ≤ g5.categories.length - 1)))
      = some (Status.review, 5, 2, 5, false) := by
  rfl

/-- C8 amended: `setReviewIndex` itself always clamps the supplied
index into `[0, categories.length - 1]` (categories untouched), but
the range invariant does not hold of every reachable state, because
`startRound` replaces the category list without resetting the
cursor. -/
theorem setReviewIndex_clamps (g : SJ.Game) (sid : String) (idx : Int)
    (h : sid = g.hostId) (hne : g.categories ≠ []) :
    (SJ.setReviewIndex g sid idx).reviewIndex ≤ g.categories.length - 1 ∧
    (SJ.setReviewIndex g sid idx).categories = g.categories := by
  subst h
  unfold SJ.setReviewIndex
  rw [if_pos rfl]
  refine ⟨?_, rfl⟩
  have hlen : ¬(g.categories.length = 0) := by
    intro h0
    exact hne (List.length_eq_zero.mp h0)
  dsimp only
  rw [if_neg hlen]
  have hL : 1 ≤ g.categories.length := Nat.pos_of_ne_zero hlen
  unfold toInt32
  omega

/-- C8 amended witness: index 999 against a two-category room clamps
to 1. -/
theorem setReviewIndex_clamps_witness :
    ("h" = exC1Game.hostId ∧ exC1Game.categories ≠ []) ∧
    ((SJ.setReviewIndex exC1Game "h" 999).reviewIndex
        ≤ exC1Game.categories.length - 1 ∧
     (SJ.setReviewIndex exC1Game "h" 999).categories = exC1Game.categories) :=
  ⟨⟨rfl, by decide⟩, setReviewIndex_clamps exC1Game "h" 999 rfl (by decide)⟩

/-- C10: no operation checks answer content against the round:
`submitAnswers` commits the supplied answers map verbatim (its keys
need not be active categories nor its values match the letter),
`toggleValidation` accepts any category string for a present player,
and `endRound` counts the resulting mark into the score even when the
category is outside the active list. -/
theorem no_content_validation :
    (∀ (g : SJ.Game) (sid : String) (a : AnsMap) (q : SJ.Player),
       g.status = Status.playing → SJ.getPlayer g.players sid = some q →
       SJ.getPlayer (SJ.submitAnswers g sid (some a)).players sid
         = some { q with submitted := true, answers := a }) ∧
    (∀ (g : SJ.Game) (sid pid c : String) (q : SJ.Player),
       sid = g.hostId → SJ.getPlayer g.players pid = some q →
       vlookup q.validations c = false → ¬ c ∈ g.categories →
       SJ.markOf (SJ.toggleValidation g sid pid c) pid c = true) ∧
    (∀ (g : SJ.Game) (sid pid c : String) (q : SJ.Player),
       sid = g.hostId → SJ.getPlayer g.players pid = some q →
       (∀ e ∈ q.validations, e.1 ≠ c) → ¬ c ∈ g.categories →
       SJ.scoreOf (SJ.endRound (SJ.toggleValidation g sid pid c) sid) pid
         = some (q.score + (countTrue q.validations + 1))) := by
  refine ⟨?_, ?_, ?_⟩
  · intro g sid a q hst hq
    have hres : (SJ.submitAnswers g sid (some a)).players
        = g.players.map (fun p =>
            if p.id == sid then { p with submitted := true, answers := a } else p) := by
      unfold SJ.submitAnswers
      rw [if_pos ⟨hst, by rw [hq]; rfl⟩]
      dsimp only
      split
      · rfl
      · rfl
    rw [hres]
    exact SJ.getPlayer_map_update g.players sid
      (fun p => { p with submitted := true, answers := a }) (fun p => rfl) q hq
  · intro g sid pid c q hh hq hv _
    subst hh
    have hq' : g.players.find? (fun p => p.id == pid) = some q := hq
    have hq0 := List.find?_some hq'
    have hqid : (q.id == pid) = true := hq0
    have hmem : (SJ.getPlayer g.players pid).isSome = true := by rw [hq]; rfl
    have hg1 : SJ.toggleValidation g g.hostId pid c
        = { g with players := SJ.setPlayer g.players pid ({ q with validations := vset q.validations c true }) } := by
      unfold SJ.toggleValidation
      rw [if_pos rfl, hq]
      simp only [hv, Bool.not_false]
    rw [hg1]
    unfold SJ.markOf
    dsimp only
    rw [SJ.getPlayer_setPlayer _ pid ({ q with validations := vset q.validations c true }) hqid hmem]
    exact vlookup_vset_self q.validations c true
  · intro g sid pid c q hh hq hfresh _
    subst hh
    have hq' : g.players.find? (fun p => p.id == pid) = some q := hq
    have hq0 := List.find?_some hq'
    have hqid : (q.id == pid) = true := hq0
    have hmem : (SJ.getPlayer g.players pid).isSome = true := by rw [hq]; rfl
    have hv : vlookup q.validations c = false := by
      unfold vlookup
      rw [List.find?_eq_none.mpr (fun e he hpe => hfresh e he (by simpa using hpe))]
      rfl
    have hg1 : SJ.toggleValidation g g.hostId pid c
        = { g with players := SJ.setPlayer g.players pid ({ q with validations := vset q.validations c true }) } := by
      unfold SJ.toggleValidation
      rw [if_pos rfl, hq]
      simp only [hv, Bool.not_false]
    rw [hg1]
    unfold SJ.endRound
    rw [if_pos rfl]
    unfold SJ.scoreOf
    dsimp only
    have h1 : SJ.getPlayer (SJ.setPlayer g.players pid ({ q with validations := vset q.validations c true })) pid
        = some ({ q with validations := vset q.validations c true }) :=
      SJ.getPlayer_setPlayer _ _ _ hqid hmem
    rw [SJ.getPlayer_map_all _ pid
      (fun p => { p with score := p.score + countTrue p.validations }) (fun p => rfl) _ h1]
    have happend : vset q.validations c true = q.validations ++ [(c, true)] := by
      unfold vset
      rw [if_neg ?hnotany]
      case hnotany =>
        intro hx
        rcases List.any_eq_true.mp hx with ⟨e, he, hpe⟩
        exact hfresh e he (by simpa using hpe)
    have hcount : countTrue (q.validations ++ [(c, true)]) = countTrue q.validations + 1 := by
      unfold countTrue
      rw [List.filter_append]
      simp
    show some (q.score + countTrue (vset q.validations c true)) = _
    rw [happend, hcount]

/-- C10 witness: a concrete off-category submission and validation that
scores a point. -/
theorem no_content_validation_witness :
    (exC10Game.status = Status.playing ∧
     SJ.getPlayer exC10Game.players "b"
       = some { id := "b", name := "B", score := 4, submitted := false, answers := [],
                validations := [], joinedAt := 2 } ∧
     "h" = exC10Game.hostId ∧
     vlookup ([] : ValMap) "Légume" = false ∧
     (∀ e ∈ ([] : ValMap), e.1 ≠ "Légume") ∧
     ¬ "Légume" ∈ exC10Game.categories) ∧
    (SJ.getPlayer (SJ.submitAnswers exC10Game "b"
         (some [("Légume", "Xylophone")])).players "b"
       = some { id := "b", name := "B", score := 4, submitted := true,
                answers := [("Légume", "Xylophone")], validations := [], joinedAt := 2 } ∧
     SJ.markOf (SJ.toggleValidation exC10Game "h" "b" "Légume") "b" "Légume" = true ∧
     SJ.scoreOf (SJ.endRound (SJ.toggleValidation exC10Game "h" "b" "Légume") "h") "b"
       = some (4 + (countTrue ([] : ValMap) + 1))) :=
  ⟨⟨rfl, rfl, rfl, rfl, fun e he => absurd he (List.not_mem_nil e), by decide⟩,
   no_content_validation.1 exC10Game "b" [("Légume", "Xylophone")] _ rfl rfl,
   no_content_validation.2.1 exC10Game "h" "b" "Légume" _ rfl rfl rfl (by decide),
   no_content_validation.2.2 exC10Game "h" "b" "Légume" _ rfl rfl
     (fun e he => absurd he (List.not_mem_nil e)) (by decide)⟩

end PetitBac
